import Mathlib

/-!
Shallow embedding of the image-alt-AI licensing backend (Express/Postgres
server). The database table `licenses` is modelled as a function from
license key to an optional row (the primary-key constraint makes keys
unique); each HTTP handler becomes a pure function from the store and the
request to the updated store and the response. External effects (image
download/resize, the vision model call, HMAC, JSON parsing) are oracle
parameters.  Timestamps are modelled by their UTC year and month, the only
components the code observes.
-/

namespace ImageAltAI

/-- A timestamp, reduced to the UTC year and month the code compares. -/
structure UTCDate where
  year : Int
  month : Int
deriving DecidableEq

/-- One row of the `licenses` table. -/
structure LicenseRow where
  license_key : String
  plan : String
  monthly_quota : Int
  used_this_month : Int
  site_url : Option String
  created_at : UTCDate
  last_reset_at : Option UTCDate
deriving DecidableEq

/-- The `licenses` table: at most one row per key (primary key). -/
abbrev Store := String → Option LicenseRow

def emptyStore : Store := fun _ => none

/-- JS truthiness of an optional string: `undefined`, `null` and `""` are falsy. -/
def strTruthy : Option String → Bool
  | none => false
  | some s => s != ""

/-- JS `a || b` on optional strings. -/
def jsOr (a b : Option String) : Option String :=
  if strTruthy a then a else b

/-- `const PLAN_QUOTAS = { starter: 300, pro: 1500, enterprise: 5000 }`. -/
def PLAN_QUOTAS : String → Option Int
  | "starter" => some 300
  | "pro" => some 1500
  | "enterprise" => some 5000
  | _ => none

/-- `last.getUTCFullYear() === now.getUTCFullYear() && last.getUTCMonth() === now.getUTCMonth()`. -/
def sameUTCMonth (a b : UTCDate) : Bool :=
  a.year == b.year && a.month == b.month

/-- `UPDATE licenses SET used_this_month = 0, last_reset_at = $2 WHERE license_key = $1`. -/
def updateResetSQL (db : Store) (k : String) (now : UTCDate) : Store :=
  fun k2 =>
    if k2 = k then
      (db k2).map (fun r => { r with used_this_month := 0, last_reset_at := some now })
    else db k2

/-- `UPDATE licenses SET monthly_quota = $2 WHERE license_key = $1`. -/
def updateQuotaSQL (db : Store) (k : String) (q : Int) : Store :=
  fun k2 =>
    if k2 = k then
      (db k2).map (fun r => { r with monthly_quota := q })
    else db k2

/-- `UPDATE licenses SET used_this_month = used_this_month + 1 WHERE license_key = $1`. -/
def incrementUsage (db : Store) (license_key : String) : Store :=
  fun k2 =>
    if k2 = license_key then
      (db k2).map (fun r => { r with used_this_month := r.used_this_month + 1 })
    else db k2

/-- JS `s.toLowerCase()` (the code's plan names are ASCII). -/
def toLowerJS (s : String) : String :=
  ⟨s.data.map Char.toLower⟩

/-- `const planLower = (plan || "starter").toLowerCase()`. -/
def planLowerOf (r : LicenseRow) : String :=
  toLowerJS (if r.plan = "" then "starter" else r.plan)

/-- `PLAN_QUOTAS[planLower] !== undefined ? PLAN_QUOTAS[planLower] : monthly_quota`. -/
def officialQuotaOf (r : LicenseRow) : Int :=
  match PLAN_QUOTAS (planLowerOf r) with
  | some q => q
  | none => r.monthly_quota

/-- `needReset`: true when `last_reset_at` is null or in a different UTC month than now. -/
def needResetOf (r : LicenseRow) (now : UTCDate) : Bool :=
  match r.last_reset_at with
  | some last => !(sameUTCMonth last now)
  | none => true

/-- `normalizeLicenseRow(row)`: lowercases the plan in the returned view,
overwrites the quota with the official one for recognized plans (persisting
the correction when it differs), and zeroes `used_this_month` (persisting
`used_this_month = 0, last_reset_at = now`) when the month changed. -/
def normalizeLicenseRow (now : UTCDate) (db : Store) (row : Option LicenseRow) :
    Store × Option LicenseRow :=
  match row with
  | none => (db, none)
  | some r =>
    let finalUsed : Int := if needResetOf r now then 0 else r.used_this_month
    let db1 := if needResetOf r now then updateResetSQL db r.license_key now else db
    let db2 :=
      if officialQuotaOf r ≠ r.monthly_quota then
        updateQuotaSQL db1 r.license_key (officialQuotaOf r)
      else db1
    (db2,
     some { r with
              plan := planLowerOf r
              monthly_quota := officialQuotaOf r
              used_this_month := finalUsed })

/-- `getLicenseFromDB(license_key)`: `SELECT ... WHERE license_key = $1`, then normalize. -/
def getLicenseFromDB (now : UTCDate) (db : Store) (license_key : String) :
    Store × Option LicenseRow :=
  normalizeLicenseRow now db (db license_key)

/-- The row stored at the key after a normalizing read of row `r`. -/
def storedRowAfter (r : LicenseRow) (now : UTCDate) : LicenseRow :=
  { r with
      monthly_quota := officialQuotaOf r
      used_this_month := if needResetOf r now then 0 else r.used_this_month
      last_reset_at := if needResetOf r now then some now else r.last_reset_at }

/-- The view returned by a normalizing read of row `r`. -/
def viewOf (r : LicenseRow) (now : UTCDate) : LicenseRow :=
  { r with
      plan := planLowerOf r
      monthly_quota := officialQuotaOf r
      used_this_month := if needResetOf r now then 0 else r.used_this_month }

-- ------------------------------------------------------------------
-- POST /optimize/image
-- ------------------------------------------------------------------

/-- An image buffer, tagged by where it came from. -/
inductive ImgBuffer where
  | fromBase64 (data : String)
  | fromUrl (url : String)
deriving DecidableEq

/-- Oracles for the external effects of the optimize pipeline: `none`
models a thrown error (axios/sharp failure, OpenAI failure). -/
structure ExtWorld where
  downloadAndResize : String → Option ImgBuffer
  resizeFromBuffer : String → Option ImgBuffer
  describeImage : ImgBuffer → Option String

/-- Does the second list start with the first? -/
def listStartsWith : List Char → List Char → Bool
  | [], _ => true
  | _ :: _, [] => false
  | p :: ps, c :: cs => p == c && listStartsWith ps cs

/-- Replace the first occurrence of `pat` by `rep` in a character list. -/
def replaceFirstList (pat rep : List Char) : List Char → List Char
  | [] => if listStartsWith pat [] then rep else []
  | c :: cs =>
    if listStartsWith pat (c :: cs) then rep ++ (c :: cs).drop pat.length
    else c :: replaceFirstList pat rep cs

/-- JS `template.replace("{description}", desc)`: first occurrence only. -/
def replaceFirst (s pat rep : String) : String :=
  ⟨replaceFirstList pat.data rep.data s.data⟩

/-- `generateAltFromImage(imageBuffer, template)`: asks the vision model for a
description and substitutes it into the template. -/
def generateAltFromImage (ext : ExtWorld) (buf : ImgBuffer) (template : String) :
    Option String :=
  (ext.describeImage buf).map (fun desc => replaceFirst template "{description}" desc)

structure OptimizeReq where
  license_key : Option String
  image_url : Option String
  image_base64 : Option String
  template : Option String
deriving DecidableEq

structure UsageView where
  plan : String
  monthly_quota : Int
  used_this_month : Int
deriving DecidableEq

structure ApiResp where
  status : Nat
  success : Bool
  message : Option String
  alt : Option String
  remaining : Option Int
  usage : Option UsageView
deriving DecidableEq

def respNoData (st : Nat) (msg : String) : ApiResp :=
  { status := st, success := false, message := some msg,
    alt := none, remaining := none, usage := none }

/-- `app.post("/optimize/image")`. -/
def optimizeImage (ext : ExtWorld) (now : UTCDate) (db : Store) (req : OptimizeReq) :
    Store × ApiResp :=
  if strTruthy req.license_key = false then
    (db, respNoData 400 "license_key obrigatória")
  else
    let key := req.license_key.getD ""
    let res1 := getLicenseFromDB now db key
    match res1.2 with
    | none => (res1.1, respNoData 200 "Licença inválida")
    | some lic =>
      if lic.used_this_month ≥ lic.monthly_quota then
        (res1.1, respNoData 200 "Limite do plano atingido")
      else
        let bufRes : Option (Option ImgBuffer) :=
          if strTruthy req.image_base64 then
            some (ext.resizeFromBuffer (req.image_base64.getD ""))
          else if strTruthy req.image_url then
            some (ext.downloadAndResize (req.image_url.getD ""))
          else none
        match bufRes with
        | none => (res1.1, respNoData 400 "Nenhuma imagem recebida.")
        | some none => (res1.1, respNoData 500 "Erro ao processar imagem")
        | some (some buf) =>
          let tpl := if strTruthy req.template then req.template.getD ""
                     else "Descrição: {description}"
          match generateAltFromImage ext buf tpl with
          | none => (res1.1, respNoData 500 "Erro ao processar imagem")
          | some alt =>
            let db2 := incrementUsage res1.1 key
            let res3 := getLicenseFromDB now db2 key
            match res3.2 with
            | none => (res3.1, respNoData 500 "Erro ao processar imagem")
            | some licUpdated =>
              (res3.1,
               { status := 200, success := true, message := none,
                 alt := some alt,
                 remaining := some (licUpdated.monthly_quota - licUpdated.used_this_month),
                 usage := some ⟨licUpdated.plan, licUpdated.monthly_quota,
                                licUpdated.used_this_month⟩ })

-- ------------------------------------------------------------------
-- POST /admin/create-license
-- ------------------------------------------------------------------

structure CreateReq where
  admin_token : Option String
  license_key : Option String
  plan : Option String
  site_url : Option String
deriving DecidableEq

structure AdminResp where
  status : Nat
  success : Bool
  message : Option String
  license : Option LicenseRow
deriving DecidableEq

/-- `app.post("/admin/create-license")`. -/
def adminCreateLicense (adminToken : String) (now : UTCDate) (db : Store)
    (req : CreateReq) : Store × AdminResp :=
  if strTruthy req.admin_token = false ∨ req.admin_token ≠ some adminToken then
    (db, { status := 401, success := false,
           message := some "Token de admin inválido.", license := none })
  else if strTruthy req.license_key = false then
    (db, { status := 400, success := false,
           message := some "license_key é obrigatória.", license := none })
  else
    let key := req.license_key.getD ""
    let res1 := getLicenseFromDB now db key
    match res1.2 with
    | some _ =>
      (res1.1, { status := 200, success := false,
                 message := some "Essa licença já existe.", license := none })
    | none =>
      let planLower := toLowerJS (if strTruthy req.plan then req.plan.getD "" else "starter")
      let quota : Int :=
        match PLAN_QUOTAS planLower with
        | some q => q
        | none => 300
      let newRow : LicenseRow :=
        { license_key := key, plan := planLower, monthly_quota := quota,
          used_this_month := 0,
          site_url := if strTruthy req.site_url then req.site_url else none,
          created_at := now, last_reset_at := some now }
      let db2 : Store := fun k2 => if k2 = key then some newRow else res1.1 k2
      let res3 := getLicenseFromDB now db2 key
      (res3.1, { status := 200, success := true,
                 message := some "Licença criada com sucesso.", license := res3.2 })

-- ------------------------------------------------------------------
-- POST /freemius/webhook
-- ------------------------------------------------------------------

structure FSLicense where
  secret_key : Option String
  key : Option String
deriving DecidableEq

structure FSPlan where
  title : Option String
  name : Option String
deriving DecidableEq

structure FSSub where
  license : Option FSLicense
  plan : Option FSPlan
deriving DecidableEq

structure FSInstall where
  license : Option FSLicense
deriving DecidableEq

structure FSSite where
  url : Option String
deriving DecidableEq

/-- The fields of a parsed Freemius webhook payload that the handler reads. -/
structure WebhookPayload where
  license : Option FSLicense
  subscription : Option FSSub
  install : Option FSInstall
  plan : Option FSPlan
  secret_key : Option String
  plan_title : Option String
  plan_name : Option String
  site : Option FSSite
deriving DecidableEq

/-- A webhook request: the signature header, the raw body, and the result of
`JSON.parse(raw)` (`none` when the body is not valid JSON). -/
structure WebhookReq where
  signature : Option String
  rawBody : String
  parsed : Option WebhookPayload

structure WebhookResp where
  status : Nat
  success : Bool
  message : Option String
deriving DecidableEq

/-- `verifyFreemiusSignature(rawBody, signature)`: hex HMAC-SHA256 of the raw
body under the secret, compared to the header by string equality. `hmacHex` is
the crypto oracle. -/
def verifyFreemiusSignature (hmacHex : String → String → String) (secret : String)
    (rawBody : String) (signature : Option String) : Bool :=
  if strTruthy signature = false then false
  else hmacHex secret rawBody == signature.getD ""

/-- Does `pat` occur anywhere (as a contiguous run) in the list? -/
def listContainsSub (pat : List Char) : List Char → Bool
  | [] => listStartsWith pat []
  | c :: cs => listStartsWith pat (c :: cs) || listContainsSub pat cs

/-- JS `s.includes(pat)`. -/
def containsSubstr (s pat : String) : Bool :=
  listContainsSub pat.data s.data

/-- Plan classification: contains "enterprise" wins, then "pro", else starter. -/
def selectPlan (planLower : String) : String :=
  if containsSubstr planLower "enterprise" then "enterprise"
  else if containsSubstr planLower "pro" then "pro"
  else "starter"

/-- `payload.license || payload.subscription?.license || payload.install?.license || null`. -/
def licenseObjOf (p : WebhookPayload) : Option FSLicense :=
  (p.license.orElse (fun _ => p.subscription.bind FSSub.license)).orElse
    (fun _ => p.install.bind FSInstall.license)

/-- `licenseObj?.secret_key || licenseObj?.key || payload.secret_key || null`. -/
def licenseKeyOf (p : WebhookPayload) : Option String :=
  jsOr (jsOr ((licenseObjOf p).bind FSLicense.secret_key)
             ((licenseObjOf p).bind FSLicense.key))
       p.secret_key

/-- `planObj?.title || planObj?.name || payload.plan_title || payload.plan_name || "starter"`. -/
def planNameRawOf (p : WebhookPayload) : String :=
  let planObj := p.plan.orElse (fun _ => p.subscription.bind FSSub.plan)
  let chain := jsOr (jsOr (jsOr (planObj.bind FSPlan.title) (planObj.bind FSPlan.name))
                          p.plan_title)
                    p.plan_name
  if strTruthy chain then chain.getD "" else "starter"

/-- `PLAN_QUOTAS[selectedPlan] || 300` (JS `||`: 0 is falsy). -/
def jsOrNum (x : Option Int) (d : Int) : Int :=
  match x with
  | some q => if q = 0 then d else q
  | none => d

/-- The webhook's `INSERT ... ON CONFLICT (license_key) DO UPDATE SET plan =
EXCLUDED.plan, monthly_quota = EXCLUDED.monthly_quota`. -/
def upsertLicense (db : Store) (k plan2 : String) (quota : Int) (site : Option String)
    (now : UTCDate) : Store :=
  fun k2 =>
    if k2 = k then
      match db k2 with
      | some r => some { r with plan := plan2, monthly_quota := quota }
      | none =>
        some { license_key := k, plan := plan2, monthly_quota := quota,
               used_this_month := 0, site_url := site, created_at := now,
               last_reset_at := some now }
    else db k2

/-- `app.post("/freemius/webhook")`. -/
def freemiusWebhook (hmacHex : String → String → String) (secret : String)
    (now : UTCDate) (db : Store) (req : WebhookReq) : Store × WebhookResp :=
  if verifyFreemiusSignature hmacHex secret req.rawBody req.signature = false then
    (db, { status := 401, success := false, message := some "assinatura inválida" })
  else
    match req.parsed with
    | none => (db, { status := 400, success := false, message := some "json inválido" })
    | some payload =>
      let lk := licenseKeyOf payload
      if strTruthy lk = false then
        (db, { status := 400, success := false, message := some "sem licença no payload" })
      else
        let licenseKey := lk.getD ""
        let selectedPlan := selectPlan (toLowerJS (planNameRawOf payload))
        let quota := jsOrNum (PLAN_QUOTAS selectedPlan) 300
        let siteUrl := if strTruthy (payload.site.bind FSSite.url)
                       then payload.site.bind FSSite.url else none
        (upsertLicense db licenseKey selectedPlan quota siteUrl now,
         { status := 200, success := true, message := none })

-- ------------------------------------------------------------------
-- Derived views and test fixtures
-- ------------------------------------------------------------------

/-- The store after one normalizing read of the given key (dropping the view). -/
def readNormalize (now : UTCDate) (db : Store) (k : String) : Store :=
  (getLicenseFromDB now db k).1

/-- The store after `n` successive normalizing reads of the same key. -/
def readNTimes (now : UTCDate) (k : String) : Nat → Store → Store
  | 0, db => db
  | n + 1, db => readNTimes now k n (readNormalize now db k)

/-- The columns a normalizing read must never touch, projected out of a row. -/
def frameFields (o : Option LicenseRow) : Option (String × String × Option String × UTCDate) :=
  o.map (fun r => (r.license_key, r.plan, r.site_url, r.created_at))

/-- A store holding exactly one row. -/
def singleStore (r : LicenseRow) : Store :=
  fun k => if k = r.license_key then some r else none

def d2026Sep : UTCDate := ⟨2026, 8⟩

def d2026Aug : UTCDate := ⟨2026, 7⟩

/-- An external world in which every download, resize and description succeeds. -/
def extOK : ExtWorld :=
  ⟨fun u => some (ImgBuffer.fromUrl u), fun b => some (ImgBuffer.fromBase64 b),
   fun _ => some "uma foto"⟩

def rowPro3 : LicenseRow := ⟨"K1", "pro", 1500, 3, none, d2026Sep, some d2026Sep⟩

def reqUrlOnly : OptimizeReq := ⟨some "K1", some "http://x/img.jpg", none, none⟩

def reqBothSources : OptimizeReq := ⟨some "K1", some "http://x/img.jpg", some "QUJD", none⟩

def reqNoSource : OptimizeReq := ⟨some "K1", none, none, none⟩

/-- A fixed HMAC oracle for concrete webhook scenarios. -/
def hmacFix : String → String → String := fun _ _ => "deadbeef"

/-- A payload whose only license key sits under `subscription.license.key`. -/
def paySubOnly : WebhookPayload :=
  ⟨none, some ⟨some ⟨none, some "K9"⟩, none⟩, none, none, none, none, none, none⟩

/-- A payload with a top-level license secret key and no plan. -/
def payTopSecret : WebhookPayload :=
  ⟨some ⟨some "SK", none⟩, none, none, none, none, none, none, none⟩

-- ------------------------------------------------------------------
-- Supporting lemmas
-- ------------------------------------------------------------------

theorem strTruthy_some (s : String) : strTruthy (some s) = (s != "") := rfl

theorem strTruthy_none : strTruthy none = false := rfl

theorem toLower_ofNat_fix (n : Nat) (h1 : 65 ≤ n) (h2 : n ≤ 90) :
    Char.toLower (Char.ofNat (n + 32)) = Char.ofNat (n + 32) := by
  interval_cases n <;> decide

theorem char_toLower_idem (c : Char) : Char.toLower (Char.toLower c) = Char.toLower c := by
  by_cases h : c.toNat ≥ 65 ∧ c.toNat ≤ 90
  · have h1 : Char.toLower c = Char.ofNat (c.toNat + 32) := by
      unfold Char.toLower
      rw [if_pos h]
    rw [h1]
    exact toLower_ofNat_fix c.toNat h.1 h.2
  · have h1 : Char.toLower c = c := by
      unfold Char.toLower
      rw [if_neg h]
    rw [h1, h1]

theorem toLowerJS_idem (s : String) : toLowerJS (toLowerJS s) = toLowerJS s := by
  simp only [toLowerJS, List.map_map]
  refine congrArg String.mk (List.map_congr_left fun c _ => ?_)
  exact char_toLower_idem c

theorem toLowerJS_ne_empty (s : String) (h : s ≠ "") : toLowerJS s ≠ "" := by
  intro he
  apply h
  have h2 : s.data.map Char.toLower = [] := congrArg String.data he
  have h3 : s.data = [] := List.map_eq_nil_iff.mp h2
  obtain ⟨data⟩ := s
  simp only at h3
  rw [h3]

theorem getLicense_char (now : UTCDate) (db : Store) (k : String) (r : LicenseRow)
    (hk : db k = some r) (hlk : r.license_key = k) :
    getLicenseFromDB now db k =
      ((fun k2 => if k2 = k then some (storedRowAfter r now) else db k2),
       some (viewOf r now)) := by
  subst hlk
  unfold getLicenseFromDB normalizeLicenseRow
  rw [hk]
  simp only [storedRowAfter, viewOf, Prod.mk.injEq]
  refine ⟨funext fun k2 => ?_, by by_cases hr : needResetOf r now <;> simp [hr]⟩
  by_cases h2 : k2 = r.license_key
  · subst h2
    by_cases hr : needResetOf r now <;> by_cases hq : officialQuotaOf r = r.monthly_quota <;>
      simp [hr, hq, updateResetSQL, updateQuotaSQL, hk]
  · by_cases hr : needResetOf r now <;> by_cases hq : officialQuotaOf r = r.monthly_quota <;>
      simp [hr, hq, updateResetSQL, updateQuotaSQL, h2]

theorem needReset_storedRowAfter (r : LicenseRow) (now : UTCDate) :
    needResetOf (storedRowAfter r now) now = false := by
  unfold storedRowAfter
  by_cases hr : needResetOf r now
  · rw [if_pos hr, if_pos hr]
    simp [needResetOf, sameUTCMonth]
  · rw [if_neg hr, if_neg hr]
    simp only [Bool.not_eq_true] at hr
    exact hr

theorem officialQuota_storedRowAfter (r : LicenseRow) (now : UTCDate) :
    officialQuotaOf (storedRowAfter r now) = (storedRowAfter r now).monthly_quota := by
  unfold officialQuotaOf storedRowAfter planLowerOf
  rcases h : PLAN_QUOTAS (toLowerJS (if r.plan = "" then "starter" else r.plan)) with _ | q <;>
    simp [officialQuotaOf, planLowerOf, h]

/-- An increment touches only `used_this_month`, so a row that needed no
normalization write still needs none after an increment. -/
theorem needReset_increment (r : LicenseRow) (now : UTCDate) (n : Int) :
    needResetOf { r with used_this_month := n } now = needResetOf r now := rfl

theorem officialQuota_increment (r : LicenseRow) (n : Int) :
    officialQuotaOf { r with used_this_month := n } = officialQuotaOf r := rfl

theorem frameFields_updateResetSQL (db : Store) (k : String) (now : UTCDate) (k2 : String) :
    frameFields ((updateResetSQL db k now) k2) = frameFields (db k2) := by
  unfold updateResetSQL frameFields
  by_cases h2 : k2 = k
  · rcases hx : db k2 with _ | r <;> simp [h2, hx]
  · simp [h2]

theorem frameFields_updateQuotaSQL (db : Store) (k : String) (q : Int) (k2 : String) :
    frameFields ((updateQuotaSQL db k q) k2) = frameFields (db k2) := by
  unfold updateQuotaSQL frameFields
  by_cases h2 : k2 = k
  · rcases hx : db k2 with _ | r <;> simp [h2, hx]
  · simp [h2]

theorem frameFields_readNormalize (now : UTCDate) (db : Store) (k k2 : String) :
    frameFields ((readNormalize now db k) k2) = frameFields (db k2) := by
  unfold readNormalize getLicenseFromDB normalizeLicenseRow
  rcases h : db k with _ | r
  · simp
  · by_cases hr : needResetOf r now <;> by_cases hq : officialQuotaOf r ≠ r.monthly_quota <;>
      simp [hr, hq, frameFields_updateResetSQL, frameFields_updateQuotaSQL]

theorem frameFields_readNTimes (now : UTCDate) (k : String) (n : Nat) (db : Store)
    (k2 : String) :
    frameFields ((readNTimes now k n db) k2) = frameFields (db k2) := by
  induction n generalizing db with
  | zero => rfl
  | succ n ih => rw [readNTimes, ih, frameFields_readNormalize]

theorem increment_then_read (now : UTCDate) (db1 : Store) (key : String) (s : LicenseRow)
    (h1 : db1 key = some s) (hlk : s.license_key = key)
    (hnr : needResetOf s now = false) (hq : officialQuotaOf s = s.monthly_quota) :
    getLicenseFromDB now (incrementUsage db1 key) key =
      (incrementUsage db1 key,
       some (viewOf { s with used_this_month := s.used_this_month + 1 } now)) := by
  have h2 : (incrementUsage db1 key) key
      = some { s with used_this_month := s.used_this_month + 1 } := by
    simp [incrementUsage, h1]
  have hlk2 : ({ s with used_this_month := s.used_this_month + 1 } : LicenseRow).license_key
      = key := hlk
  rw [getLicense_char now (incrementUsage db1 key) key _ h2 hlk2]
  rw [Prod.mk.injEq]
  refine ⟨funext fun k2 => ?_, rfl⟩
  by_cases hk2 : k2 = key
  · subst hk2
    rw [if_pos rfl, h2]
    have hq2 : officialQuotaOf { s with used_this_month := s.used_this_month + 1 }
        = s.monthly_quota := by
      rw [officialQuota_increment]
      exact hq
    have hnr2 : needResetOf { s with used_this_month := s.used_this_month + 1 } now
        = false := hnr
    simp [storedRowAfter, hnr2, hq2]
  · rw [if_neg hk2]

-- ------------------------------------------------------------------
-- Claim theorems
-- ------------------------------------------------------------------

/-- C2 (amended): a read returns (and persists, when it disagrees) the
authoritative quota whenever the stored plan — after the code's defaulting of
an empty plan to "starter" and lowercasing — is recognized; when that
defaulted, lowercased plan is unrecognized, the stored quota is kept
unchanged in the view and in the store. -/
theorem quota_selfheal (now : UTCDate) (db : Store) (k : String) (r : LicenseRow)
    (hk : db k = some r) (hlk : r.license_key = k) :
    (∀ q, PLAN_QUOTAS (planLowerOf r) = some q →
       (getLicenseFromDB now db k).2.map LicenseRow.monthly_quota = some q ∧
       ((getLicenseFromDB now db k).1 k).map LicenseRow.monthly_quota = some q) ∧
    (PLAN_QUOTAS (planLowerOf r) = none →
       (getLicenseFromDB now db k).2.map LicenseRow.monthly_quota = some r.monthly_quota ∧
       ((getLicenseFromDB now db k).1 k).map LicenseRow.monthly_quota
         = some r.monthly_quota) := by
  rw [getLicense_char now db k r hk hlk]
  constructor
  · intro q hq
    constructor
    · simp [viewOf, officialQuotaOf, hq]
    · simp [storedRowAfter, officialQuotaOf, hq]
  · intro hq
    constructor
    · simp [viewOf, officialQuotaOf, hq]
    · simp [storedRowAfter, officialQuotaOf, hq]

/-- Witness for C2: a stored plan "PRO" with stale quota 42 reads back (and
persists) the authoritative 1500. -/
theorem quota_selfheal_witness :
    PLAN_QUOTAS (planLowerOf ⟨"K1", "PRO", 42, 5, none, d2026Sep, some d2026Sep⟩)
      = some 1500 ∧
    ((getLicenseFromDB d2026Sep
        (singleStore ⟨"K1", "PRO", 42, 5, none, d2026Sep, some d2026Sep⟩) "K1").2.map
          LicenseRow.monthly_quota = some 1500 ∧
     ((getLicenseFromDB d2026Sep
        (singleStore ⟨"K1", "PRO", 42, 5, none, d2026Sep, some d2026Sep⟩) "K1").1 "K1").map
          LicenseRow.monthly_quota = some 1500) :=
  ⟨by decide,
   (quota_selfheal d2026Sep
      (singleStore ⟨"K1", "PRO", 42, 5, none, d2026Sep, some d2026Sep⟩) "K1"
      ⟨"K1", "PRO", 42, 5, none, d2026Sep, some d2026Sep⟩ (by decide) rfl).1
     1500 (by decide)⟩

/-- C2 counterexample: a stored plan `""` lowercases to an unrecognized name,
yet the read does not keep the stored quota 42 — it persists 300, because the
code first defaults an empty plan to "starter". -/
theorem quota_selfheal_cex :
    PLAN_QUOTAS (toLowerJS "") = none ∧
    ((getLicenseFromDB d2026Sep
        (singleStore ⟨"K1", "", 42, 5, none, d2026Sep, some d2026Sep⟩) "K1").1 "K1").map
          LicenseRow.monthly_quota = some 300 := by
  constructor
  · decide
  · decide

/-- C3: a read leaves `used_this_month` unchanged when `last_reset_at` is in
the current UTC month; when it is null or in another month the read returns 0
and persists `used_this_month = 0, last_reset_at = now`; and after one read
the stored row needs no further reset this month, so the reset happens once
per calendar month. -/
theorem monthly_reset (now : UTCDate) (db : Store) (k : String) (r : LicenseRow)
    (hk : db k = some r) (hlk : r.license_key = k) :
    (∀ t, r.last_reset_at = some t → sameUTCMonth t now = true →
       (getLicenseFromDB now db k).2.map LicenseRow.used_this_month
         = some r.used_this_month ∧
       ((getLicenseFromDB now db k).1 k).map LicenseRow.used_this_month
         = some r.used_this_month ∧
       ((getLicenseFromDB now db k).1 k).map LicenseRow.last_reset_at
         = some (some t)) ∧
    ((r.last_reset_at = none ∨
        ∃ t, r.last_reset_at = some t ∧ sameUTCMonth t now = false) →
       (getLicenseFromDB now db k).2.map LicenseRow.used_this_month = some 0 ∧
       ((getLicenseFromDB now db k).1 k).map LicenseRow.used_this_month = some 0 ∧
       ((getLicenseFromDB now db k).1 k).map LicenseRow.last_reset_at
         = some (some now)) ∧
    (∀ r1, (getLicenseFromDB now db k).1 k = some r1 →
       ((getLicenseFromDB now ((getLicenseFromDB now db k).1) k).1 k).map
           LicenseRow.used_this_month = some r1.used_this_month ∧
       ((getLicenseFromDB now ((getLicenseFromDB now db k).1) k).1 k).map
           LicenseRow.last_reset_at = some r1.last_reset_at) := by
  rw [getLicense_char now db k r hk hlk]
  refine ⟨?_, ?_, ?_⟩
  · intro t ht hsm
    have hnr : needResetOf r now = false := by
      simp [needResetOf, ht, hsm]
    refine ⟨?_, ?_, ?_⟩ <;> simp [viewOf, storedRowAfter, hnr, ht]
  · intro hcase
    have hnr : needResetOf r now = true := by
      rcases hcase with h0 | ⟨t, ht, hsm⟩
      · simp [needResetOf, h0]
      · simp [needResetOf, ht, hsm]
    refine ⟨?_, ?_, ?_⟩ <;> simp [viewOf, storedRowAfter, hnr]
  · intro r1 hr1
    simp only [if_pos rfl] at hr1
    have hr1' : r1 = storedRowAfter r now := by
      exact (Option.some.injEq _ _ ▸ hr1).symm
    have hlk1 : r1.license_key = k := by
      rw [hr1']
      exact hlk
    have hdb1 : (fun k2 => if k2 = k then some (storedRowAfter r now) else db k2) k
        = some r1 := by
      simp [hr1']
    rw [getLicense_char now _ k r1 hdb1 hlk1]
    have hnr1 : needResetOf r1 now = false := by
      rw [hr1']
      exact needReset_storedRowAfter r now
    refine ⟨?_, ?_⟩ <;> simp [storedRowAfter, hnr1]

/-- Witness for C3: a license whose `last_reset_at` is in the previous month
reads back 0 and gets `last_reset_at = now` persisted. -/
theorem monthly_reset_witness :
    (⟨"K2", "starter", 300, 9, none, d2026Aug, some d2026Aug⟩ : LicenseRow).last_reset_at
        = some d2026Aug ∧
    sameUTCMonth d2026Aug d2026Sep = false ∧
    ((getLicenseFromDB d2026Sep
        (singleStore ⟨"K2", "starter", 300, 9, none, d2026Aug, some d2026Aug⟩) "K2").2.map
          LicenseRow.used_this_month = some 0 ∧
     ((getLicenseFromDB d2026Sep
        (singleStore ⟨"K2", "starter", 300, 9, none, d2026Aug, some d2026Aug⟩) "K2").1
          "K2").map LicenseRow.used_this_month = some 0 ∧
     ((getLicenseFromDB d2026Sep
        (singleStore ⟨"K2", "starter", 300, 9, none, d2026Aug, some d2026Aug⟩) "K2").1
          "K2").map LicenseRow.last_reset_at = some (some d2026Sep)) :=
  ⟨rfl, by decide,
   (monthly_reset d2026Sep
      (singleStore ⟨"K2", "starter", 300, 9, none, d2026Aug, some d2026Aug⟩) "K2"
      ⟨"K2", "starter", 300, 9, none, d2026Aug, some d2026Aug⟩ (by decide) rfl).2.1
     (Or.inr ⟨d2026Aug, rfl, by decide⟩)⟩

/-- C10: normalizing reads only ever write `used_this_month`, `last_reset_at`
and `monthly_quota`; the stored `license_key`, `plan`, `site_url` and
`created_at` are untouched by one read and by any number of successive reads,
so a mixed-case stored plan stays mixed-case in the database. -/
theorem normalize_frame (now : UTCDate) (db : Store) (k k2 : String) (n : Nat) :
    frameFields ((readNormalize now db k) k2) = frameFields (db k2) ∧
    frameFields ((readNTimes now k n db) k2) = frameFields (db k2) :=
  ⟨frameFields_readNormalize now db k k2, frameFields_readNTimes now k n db k2⟩

/-- C1: with a valid key, `/optimize/image` first reads the normalized
license; at or above quota it answers success:false "Limite do plano
atingido" without incrementing; below quota, a response with success:true
stores exactly one increment, and any success:false response (no image
source, pipeline failure) stores none — so the increment never precedes a
successful generation. -/
theorem optimize_quota (ext : ExtWorld) (now : UTCDate) (db : Store) (req : OptimizeReq)
    (key : String) (r : LicenseRow)
    (hkey : req.license_key = some key) (hkne : key ≠ "")
    (hk : db key = some r) (hlk : r.license_key = key) :
    ((viewOf r now).used_this_month ≥ (viewOf r now).monthly_quota →
       optimizeImage ext now db req
         = ((getLicenseFromDB now db key).1, respNoData 200 "Limite do plano atingido") ∧
       (((getLicenseFromDB now db key).1) key).map LicenseRow.used_this_month
         = some (viewOf r now).used_this_month) ∧
    ((viewOf r now).used_this_month < (viewOf r now).monthly_quota →
       ∀ db2 resp, optimizeImage ext now db req = (db2, resp) →
         (resp.success = true →
            resp.status = 200 ∧
            (db2 key).map LicenseRow.used_this_month
              = some ((viewOf r now).used_this_month + 1)) ∧
         (resp.success = false →
            (db2 key).map LicenseRow.used_this_month
              = some (viewOf r now).used_this_month)) := by
  have hchar := getLicense_char now db key r hk hlk
  have hb1 : (fun k2 => if k2 = key then some (storedRowAfter r now) else db k2) key
      = some (storedRowAfter r now) := by simp
  have husedb1 : ((fun k2 => if k2 = key then some (storedRowAfter r now) else db k2) key).map
      LicenseRow.used_this_month = some ((viewOf r now).used_this_month) := by
    simp [storedRowAfter, viewOf]
  constructor
  · intro hge
    have heval : optimizeImage ext now db req
        = ((fun k2 => if k2 = key then some (storedRowAfter r now) else db k2),
           respNoData 200 "Limite do plano atingido") := by
      unfold optimizeImage
      rw [hkey]
      simp only [Option.getD_some, strTruthy_some]
      rw [if_neg (by simp [hkne])]
      rw [hchar]
      dsimp only
      rw [if_pos hge]
    refine ⟨?_, ?_⟩
    · rw [heval, hchar]
    · rw [hchar]
      exact husedb1
  · intro hlt db2 resp h
    unfold optimizeImage at h
    rw [hkey] at h
    simp only [Option.getD_some, strTruthy_some] at h
    rw [if_neg (by simp [hkne])] at h
    rw [hchar] at h
    dsimp only at h
    rw [if_neg (not_le.mpr hlt)] at h
    have hlks : (storedRowAfter r now).license_key = key := hlk
    by_cases hbase : strTruthy req.image_base64
    · rw [if_pos hbase] at h
      rcases hrb : ext.resizeFromBuffer (req.image_base64.getD "") with _ | buf
      · rw [hrb] at h
        dsimp only at h
        injection h with hdb hresp
        subst hdb
        subst hresp
        refine ⟨fun hs => by simp [respNoData] at hs, fun _ => husedb1⟩
      · rw [hrb] at h
        dsimp only at h
        rcases hg : ext.describeImage buf with _ | desc
        · rw [generateAltFromImage, hg] at h
          dsimp only [Option.map_none'] at h
          injection h with hdb hresp
          subst hdb
          subst hresp
          refine ⟨fun hs => by simp [respNoData] at hs, fun _ => husedb1⟩
        · rw [generateAltFromImage, hg] at h
          dsimp only [Option.map_some'] at h
          rw [increment_then_read now _ key (storedRowAfter r now) hb1 hlks
                (needReset_storedRowAfter r now) (officialQuota_storedRowAfter r now)] at h
          dsimp only at h
          injection h with hdb hresp
          subst hdb
          subst hresp
          refine ⟨fun _ => ⟨rfl, ?_⟩, fun hs => by simp at hs⟩
          simp [incrementUsage, storedRowAfter, viewOf]
    · rw [if_neg hbase] at h
      by_cases hurl : strTruthy req.image_url
      · rw [if_pos hurl] at h
        rcases hrb : ext.downloadAndResize (req.image_url.getD "") with _ | buf
        · rw [hrb] at h
          dsimp only at h
          injection h with hdb hresp
          subst hdb
          subst hresp
          refine ⟨fun hs => by simp [respNoData] at hs, fun _ => husedb1⟩
        · rw [hrb] at h
          dsimp only at h
          rcases hg : ext.describeImage buf with _ | desc
          · rw [generateAltFromImage, hg] at h
            dsimp only [Option.map_none'] at h
            injection h with hdb hresp
            subst hdb
            subst hresp
            refine ⟨fun hs => by simp [respNoData] at hs, fun _ => husedb1⟩
          · rw [generateAltFromImage, hg] at h
            dsimp only [Option.map_some'] at h
            rw [increment_then_read now _ key (storedRowAfter r now) hb1 hlks
                  (needReset_storedRowAfter r now) (officialQuota_storedRowAfter r now)] at h
            dsimp only at h
            injection h with hdb hresp
            subst hdb
            subst hresp
            refine ⟨fun _ => ⟨rfl, ?_⟩, fun hs => by simp at hs⟩
            simp [incrementUsage, storedRowAfter, viewOf]
      · rw [if_neg hurl] at h
        dsimp only at h
        injection h with hdb hresp
        subst hdb
        subst hresp
        refine ⟨fun hs => by simp [respNoData] at hs, fun _ => husedb1⟩

/-- Witness for C1: a "pro" license at 3/1500 with a URL image and a working
pipeline answers success with exactly one stored increment. -/
theorem optimize_quota_witness :
    (viewOf rowPro3 d2026Sep).used_this_month < (viewOf rowPro3 d2026Sep).monthly_quota ∧
    (optimizeImage extOK d2026Sep (singleStore rowPro3) reqUrlOnly).2.status = 200 ∧
    ((optimizeImage extOK d2026Sep (singleStore rowPro3) reqUrlOnly).1 "K1").map
        LicenseRow.used_this_month = some ((viewOf rowPro3 d2026Sep).used_this_month + 1) :=
  ⟨by decide,
   ((optimize_quota extOK d2026Sep (singleStore rowPro3) reqUrlOnly "K1" rowPro3 rfl
       (by decide) (by decide) rfl).2 (by decide) _ _ rfl).1 (by decide)⟩

/-- C5 counterexample: a request supplying both image_url and image_base64 is
not rejected with HTTP 400 — the handler processes the base64 image, answers
success, and increments usage. -/
theorem image_source_cex :
    strTruthy reqBothSources.image_url = true ∧
    strTruthy reqBothSources.image_base64 = true ∧
    (optimizeImage extOK d2026Sep (singleStore rowPro3) reqBothSources).2.status = 200 ∧
    (optimizeImage extOK d2026Sep (singleStore rowPro3) reqBothSources).2.success = true ∧
    ((optimizeImage extOK d2026Sep (singleStore rowPro3) reqBothSources).1 "K1").map
        LicenseRow.used_this_month = some 4 :=
  ⟨by decide, by decide, by decide, by decide, by decide⟩

/-- C5 (amended): at least one image source is required — with a valid
under-quota license and neither image_url nor image_base64 supplied the
handler answers HTTP 400 "Nenhuma imagem recebida." and stores no increment;
when base64 data is supplied it takes precedence and image_url is ignored. -/
theorem image_source_required (ext : ExtWorld) (now : UTCDate) (db : Store)
    (req : OptimizeReq) :
    (∀ key r, req.license_key = some key → key ≠ "" →
       db key = some r → r.license_key = key →
       (viewOf r now).used_this_month < (viewOf r now).monthly_quota →
       strTruthy req.image_base64 = false → strTruthy req.image_url = false →
       optimizeImage ext now db req
         = ((getLicenseFromDB now db key).1, respNoData 400 "Nenhuma imagem recebida.") ∧
       (((getLicenseFromDB now db key).1) key).map LicenseRow.used_this_month
         = some (viewOf r now).used_this_month) ∧
    (strTruthy req.image_base64 = true →
       optimizeImage ext now db req
         = optimizeImage ext now db { req with image_url := none }) := by
  constructor
  · intro key r hkey hkne hk hlk hlt hbase hurl
    have hchar := getLicense_char now db key r hk hlk
    have heval : optimizeImage ext now db req
        = ((fun k2 => if k2 = key then some (storedRowAfter r now) else db k2),
           respNoData 400 "Nenhuma imagem recebida.") := by
      unfold optimizeImage
      rw [hkey]
      simp only [Option.getD_some, strTruthy_some]
      rw [if_neg (by simp [hkne])]
      rw [hchar]
      dsimp only
      rw [if_neg (not_le.mpr hlt), if_neg (by simp [hbase]), if_neg (by simp [hurl])]
    refine ⟨by rw [heval, hchar], ?_⟩
    rw [hchar]
    simp [storedRowAfter, viewOf]
  · intro hbase
    unfold optimizeImage
    simp only [hbase, if_true]

/-- Witness for C5 (amended): a request with neither source on a valid
under-quota license gets HTTP 400 with usage unchanged. -/
theorem image_source_required_witness :
    optimizeImage extOK d2026Sep (singleStore rowPro3) reqNoSource
      = ((getLicenseFromDB d2026Sep (singleStore rowPro3) "K1").1,
         respNoData 400 "Nenhuma imagem recebida.") ∧
    (((getLicenseFromDB d2026Sep (singleStore rowPro3) "K1").1) "K1").map
        LicenseRow.used_this_month = some (viewOf rowPro3 d2026Sep).used_this_month :=
  (image_source_required extOK d2026Sep (singleStore rowPro3) reqNoSource).1 "K1" rowPro3
    rfl (by decide) (by decide) rfl (by decide) (by decide) (by decide)

/-- C6 counterexample: creating a license with unrecognized plan "Gold"
stores plan "gold" (only the quota falls back to 300) — the plan is not
defaulted to "starter". -/
theorem create_license_cex :
    PLAN_QUOTAS (toLowerJS "Gold") = none ∧
    ((adminCreateLicense "secret" d2026Sep emptyStore
        ⟨some "secret", some "KEY1", some "Gold", none⟩).1 "KEY1").map LicenseRow.plan
      = some "gold" ∧
    some "gold" ≠ some "starter" :=
  ⟨by decide, by decide, by decide⟩

/-- C6 (amended): with a correct admin token, creating over an existing key
answers success:false and performs only the normalizing read's corrective
writes — never an overwrite with the request's data; on a fresh key the
created record stores the lowercased requested plan (defaulting to "starter"
only when the plan is omitted or empty), the plan's authoritative quota when
recognized and 300 otherwise, used_this_month = 0 and last_reset_at = now. -/
theorem create_license (adminToken : String) (now : UTCDate) (db : Store) (req : CreateReq)
    (hat : req.admin_token = some adminToken) (hatne : adminToken ≠ "") :
    (∀ key r, req.license_key = some key → key ≠ "" →
       db key = some r → r.license_key = key →
       adminCreateLicense adminToken now db req
         = ((getLicenseFromDB now db key).1,
            ⟨200, false, some "Essa licença já existe.", none⟩)) ∧
    (∀ key, req.license_key = some key → key ≠ "" →
       db key = none →
       (adminCreateLicense adminToken now db req).1 key
         = some ⟨key, toLowerJS (if strTruthy req.plan then req.plan.getD "" else "starter"),
                 (match PLAN_QUOTAS
                     (toLowerJS (if strTruthy req.plan then req.plan.getD "" else "starter")) with
                  | some q => q
                  | none => 300),
                 0, (if strTruthy req.site_url then req.site_url else none), now, some now⟩ ∧
       (adminCreateLicense adminToken now db req).2.success = true) := by
  have htok : ¬(strTruthy req.admin_token = false ∨ req.admin_token ≠ some adminToken) := by
    rw [hat]
    simp [strTruthy_some, hatne]
  constructor
  · intro key r hkey hkne hk hlk
    have hchar := getLicense_char now db key r hk hlk
    unfold adminCreateLicense
    rw [if_neg htok, hkey]
    simp only [Option.getD_some, strTruthy_some]
    rw [if_neg (by simp [hkne])]
    rw [hchar]

  · intro key hkey hkne hk
    have hget0 : getLicenseFromDB now db key = (db, none) := by
      unfold getLicenseFromDB normalizeLicenseRow
      rw [hk]
    have heval : adminCreateLicense adminToken now db req
        = (let planLower := toLowerJS (if strTruthy req.plan then req.plan.getD "" else "starter")
           let quota : Int :=
             match PLAN_QUOTAS planLower with
             | some q => q
             | none => 300
           let newRow : LicenseRow :=
             ⟨key, planLower, quota, 0,
              (if strTruthy req.site_url then req.site_url else none), now, some now⟩
           let db2 : Store := fun k2 => if k2 = key then some newRow else db k2
           let res3 := getLicenseFromDB now db2 key
           (res3.1, { status := 200, success := true,
                      message := some "Licença criada com sucesso.", license := res3.2 })) := by
      unfold adminCreateLicense
      rw [if_neg htok, hkey]
      simp only [Option.getD_some, strTruthy_some]
      rw [if_neg (by simp [hkne])]
      rw [hget0]
    rw [heval]
    dsimp only
    set planLower := toLowerJS (if strTruthy req.plan then req.plan.getD "" else "starter")
      with hpl
    set quota : Int :=
      (match PLAN_QUOTAS planLower with
       | some q => q
       | none => 300) with hq
    set newRow : LicenseRow :=
      ⟨key, planLower, quota, 0,
       (if strTruthy req.site_url then req.site_url else none), now, some now⟩ with hnew
    have hplne : planLower ≠ "" := by
      rw [hpl]
      apply toLowerJS_ne_empty
      rcases hsp : req.plan with _ | s
      · simp [strTruthy_none]
      · by_cases hs : s = ""
        · subst hs
          simp [strTruthy_some]
        · simp [strTruthy_some, bne_iff_ne, hs]
    have hplof : planLowerOf newRow = planLower := by
      unfold planLowerOf
      rw [hnew]
      dsimp only
      rw [if_neg hplne, hpl]
      exact toLowerJS_idem _
    have hoq : officialQuotaOf newRow = newRow.monthly_quota := by
      unfold officialQuotaOf
      rw [hplof]
      rw [hnew]
      dsimp only
      rw [hq]
      rcases hpq : PLAN_QUOTAS planLower with _ | q <;> simp [hpq]
    have hnr : needResetOf newRow now = false := by
      rw [hnew]
      simp [needResetOf, sameUTCMonth]
    have hdb2 : (fun k2 => if k2 = key then some newRow else db k2) key = some newRow := by
      simp
    have hlk2 : newRow.license_key = key := by rw [hnew]
    have hchar2 := getLicense_char now
      (fun k2 => if k2 = key then some newRow else db k2) key newRow hdb2 hlk2
    rw [hchar2]
    have hsra : storedRowAfter newRow now = newRow := by
      unfold storedRowAfter
      rw [hnr, hoq]
      simp
    constructor
    · simp [hsra]
    · rfl

/-- Witness for C6 (amended): creating "KEY1" with plan "Pro" on an empty
store yields a stored row (KEY1, "pro", 1500, 0, –, now, now) and success. -/
theorem create_license_witness :
    (adminCreateLicense "secret" d2026Sep emptyStore
        ⟨some "secret", some "KEY1", some "Pro", none⟩).1 "KEY1"
      = some ⟨"KEY1",
              toLowerJS (if strTruthy (some "Pro") then (some "Pro").getD "" else "starter"),
              (match PLAN_QUOTAS
                  (toLowerJS (if strTruthy (some "Pro") then (some "Pro").getD ""
                              else "starter")) with
               | some q => q
               | none => 300),
              0, (if strTruthy (none : Option String) then none else none),
              d2026Sep, some d2026Sep⟩ ∧
    (adminCreateLicense "secret" d2026Sep emptyStore
        ⟨some "secret", some "KEY1", some "Pro", none⟩).2.success = true :=
  (create_license "secret" d2026Sep emptyStore
      ⟨some "secret", some "KEY1", some "Pro", none⟩ rfl (by decide)).2
    "KEY1" rfl (by decide) rfl

/-- C4: the webhook accepts (never 401) exactly when the signature header
equals the hex HMAC of the raw body under the secret; a missing or mismatched
signature yields 401 with the store unchanged, and a body that fails JSON
parsing after the signature passes yields 400 with the store unchanged. -/
theorem webhook_signature (hmacHex : String → String → String) (secret : String)
    (now : UTCDate) (db : Store) (req : WebhookReq)
    (hne : hmacHex secret req.rawBody ≠ "") :
    (req.signature = some (hmacHex secret req.rawBody) →
       (freemiusWebhook hmacHex secret now db req).2.status ≠ 401) ∧
    (req.signature ≠ some (hmacHex secret req.rawBody) →
       freemiusWebhook hmacHex secret now db req
         = (db, ⟨401, false, some "assinatura inválida"⟩)) ∧
    (req.signature = some (hmacHex secret req.rawBody) → req.parsed = none →
       freemiusWebhook hmacHex secret now db req
         = (db, ⟨400, false, some "json inválido"⟩)) := by
  refine ⟨?_, ?_, ?_⟩
  · intro hs
    have hv : verifyFreemiusSignature hmacHex secret req.rawBody req.signature = true := by
      unfold verifyFreemiusSignature
      rw [hs]
      simp [strTruthy_some, bne_iff_ne, hne]
    unfold freemiusWebhook
    rw [hv]
    rw [if_neg (by simp)]
    rcases hp : req.parsed with _ | payload
    · simp
    · dsimp only
      by_cases hl : strTruthy (licenseKeyOf payload) = false
      · rw [if_pos hl]
        simp
      · rw [if_neg hl]
        simp
  · intro hs
    have hv : verifyFreemiusSignature hmacHex secret req.rawBody req.signature = false := by
      unfold verifyFreemiusSignature
      rcases hsig : req.signature with _ | s
      · simp [strTruthy_none]
      · by_cases hse : s = ""
        · subst hse
          simp [strTruthy_some]
        · have hsne : hmacHex secret req.rawBody ≠ s := by
            intro hcontra
            exact hs (by rw [hsig, hcontra])
          simp [strTruthy_some, bne_iff_ne, hse, hsne]
    unfold freemiusWebhook
    rw [hv]
    rw [if_pos rfl]
  · intro hs hp
    have hv : verifyFreemiusSignature hmacHex secret req.rawBody req.signature = true := by
      unfold verifyFreemiusSignature
      rw [hs]
      simp [strTruthy_some, bne_iff_ne, hne]
    unfold freemiusWebhook
    rw [hv]
    rw [if_neg (by simp), hp]

/-- Witness for C4: a wrong signature header on the fixed HMAC oracle yields
401 and leaves the store untouched. -/
theorem webhook_signature_witness :
    hmacFix "s" "body" ≠ "" ∧
    (some "bad" : Option String) ≠ some (hmacFix "s" "body") ∧
    freemiusWebhook hmacFix "s" d2026Sep emptyStore ⟨some "bad", "body", none⟩
      = (emptyStore, ⟨401, false, some "assinatura inválida"⟩) :=
  ⟨by decide, by decide,
   (webhook_signature hmacFix "s" d2026Sep emptyStore ⟨some "bad", "body", none⟩
      (by decide)).2.1 (by decide)⟩

/-- C7: the webhook upsert inserts a full fresh row when the key is absent,
and on conflict overwrites only plan and monthly_quota — used_this_month,
site_url, created_at and last_reset_at of the existing row are untouched, and
no other key is affected. -/
theorem webhook_upsert (db : Store) (k plan2 : String) (quota : Int)
    (site : Option String) (now : UTCDate) :
    (∀ r, db k = some r →
       upsertLicense db k plan2 quota site now k
         = some { r with plan := plan2, monthly_quota := quota }) ∧
    (db k = none →
       upsertLicense db k plan2 quota site now k
         = some ⟨k, plan2, quota, 0, site, now, some now⟩) ∧
    (∀ k2, k2 ≠ k → upsertLicense db k plan2 quota site now k2 = db k2) := by
  refine ⟨?_, ?_, ?_⟩
  · intro r hr
    simp [upsertLicense, hr]
  · intro hr
    simp [upsertLicense, hr]
  · intro k2 hk2
    simp [upsertLicense, hk2]

/-- Witness for C7: upserting over the existing "K1" row replaces only plan
and quota, keeping its usage count 3. -/
theorem webhook_upsert_witness :
    upsertLicense (singleStore rowPro3) "K1" "enterprise" 5000 none d2026Sep "K1"
      = some { rowPro3 with plan := "enterprise", monthly_quota := (5000 : Int) } :=
  (webhook_upsert (singleStore rowPro3) "K1" "enterprise" 5000 none d2026Sep).1 rowPro3
    (by decide)

theorem upsert_plan_quota (db : Store) (k p : String) (q : Int) (s : Option String)
    (now : UTCDate) :
    (upsertLicense db k p q s now k).map LicenseRow.plan = some p ∧
    (upsertLicense db k p q s now k).map LicenseRow.monthly_quota = some q := by
  unfold upsertLicense
  rcases h : db k with _ | r <;> simp [h]

/-- C8: on an accepted webhook the stored plan is classified from the
payload's plan name by case-insensitive substring match with priority
enterprise > pro > starter, and stored with the matching authoritative
quota. -/
theorem webhook_plan_class (hmacHex : String → String → String)
    (secret : String) (now : UTCDate) (db : Store) (key nameRaw raw : String)
    (hne : hmacHex secret raw ≠ "") (hkey : key ≠ "") (hname : nameRaw ≠ "") :
    ∀ db2 resp,
      freemiusWebhook hmacHex secret now db
        ⟨some (hmacHex secret raw), raw,
         some ⟨some ⟨none, some key⟩, none, none, some ⟨some nameRaw, none⟩,
               none, none, none, none⟩⟩ = (db2, resp) →
      resp.status = 200 ∧ resp.success = true ∧
      (containsSubstr (toLowerJS nameRaw) "enterprise" = true →
         (db2 key).map LicenseRow.plan = some "enterprise" ∧
         (db2 key).map LicenseRow.monthly_quota = some 5000) ∧
      (containsSubstr (toLowerJS nameRaw) "enterprise" = false →
         containsSubstr (toLowerJS nameRaw) "pro" = true →
         (db2 key).map LicenseRow.plan = some "pro" ∧
         (db2 key).map LicenseRow.monthly_quota = some 1500) ∧
      (containsSubstr (toLowerJS nameRaw) "enterprise" = false →
         containsSubstr (toLowerJS nameRaw) "pro" = false →
         (db2 key).map LicenseRow.plan = some "starter" ∧
         (db2 key).map LicenseRow.monthly_quota = some 300) := by
  intro db2 resp h
  have hv : verifyFreemiusSignature hmacHex secret raw (some (hmacHex secret raw)) = true := by
    unfold verifyFreemiusSignature
    simp [strTruthy_some, bne_iff_ne, hne]
  have hlk : licenseKeyOf ⟨some ⟨none, some key⟩, none, none, some ⟨some nameRaw, none⟩,
      none, none, none, none⟩ = some key := by
    simp [licenseKeyOf, licenseObjOf, jsOr, Option.orElse, strTruthy_some, strTruthy_none,
          bne_iff_ne, hkey]
  have hplan : planNameRawOf ⟨some ⟨none, some key⟩, none, none, some ⟨some nameRaw, none⟩,
      none, none, none, none⟩ = nameRaw := by
    simp [planNameRawOf, jsOr, Option.orElse, strTruthy_some, strTruthy_none,
          bne_iff_ne, hname]
  unfold freemiusWebhook at h
  rw [hv] at h
  rw [if_neg (by simp)] at h
  dsimp only at h
  rw [hlk] at h
  rw [if_neg (by simp [strTruthy_some, bne_iff_ne, hkey])] at h
  simp only [Option.getD_some] at h
  rw [hplan] at h
  injection h with hdb hresp
  subst hdb
  subst hresp
  refine ⟨rfl, rfl, ?_, ?_, ?_⟩
  · intro hent
    have hsel : selectPlan (toLowerJS nameRaw) = "enterprise" := by
      simp [selectPlan, hent]
    rw [hsel]
    have hq : jsOrNum (PLAN_QUOTAS "enterprise") 300 = 5000 := by decide
    rw [hq]
    exact upsert_plan_quota db key "enterprise" 5000 _ now
  · intro hent hpro
    have hsel : selectPlan (toLowerJS nameRaw) = "pro" := by
      simp [selectPlan, hent, hpro]
    rw [hsel]
    have hq : jsOrNum (PLAN_QUOTAS "pro") 300 = 1500 := by decide
    rw [hq]
    exact upsert_plan_quota db key "pro" 1500 _ now
  · intro hent hpro
    have hsel : selectPlan (toLowerJS nameRaw) = "starter" := by
      simp [selectPlan, hent, hpro]
    rw [hsel]
    have hq : jsOrNum (PLAN_QUOTAS "starter") 300 = 300 := by decide
    rw [hq]
    exact upsert_plan_quota db key "starter" 300 _ now

/-- Witness for C8: plan title "Enterprise Plan" stores enterprise/5000; plan
name "Starter" stores starter/300. -/
theorem webhook_plan_class_witness :
    containsSubstr (toLowerJS "Enterprise Plan") "enterprise" = true ∧
    (((freemiusWebhook hmacFix "s" d2026Sep emptyStore
        ⟨some (hmacFix "s" "body"), "body",
         some ⟨some ⟨none, some "XYZ"⟩, none, none, some ⟨some "Enterprise Plan", none⟩,
               none, none, none, none⟩⟩).1 "XYZ").map LicenseRow.plan = some "enterprise" ∧
     ((freemiusWebhook hmacFix "s" d2026Sep emptyStore
        ⟨some (hmacFix "s" "body"), "body",
         some ⟨some ⟨none, some "XYZ"⟩, none, none, some ⟨some "Enterprise Plan", none⟩,
               none, none, none, none⟩⟩).1 "XYZ").map LicenseRow.monthly_quota = some 5000) ∧
    (((freemiusWebhook hmacFix "s" d2026Sep emptyStore
        ⟨some (hmacFix "s" "body"), "body",
         some ⟨some ⟨none, some "XYZ"⟩, none, none, some ⟨none, some "Starter"⟩,
               none, none, none, none⟩⟩).1 "XYZ").map LicenseRow.plan = some "starter" ∧
     ((freemiusWebhook hmacFix "s" d2026Sep emptyStore
        ⟨some (hmacFix "s" "body"), "body",
         some ⟨some ⟨none, some "XYZ"⟩, none, none, some ⟨none, some "Starter"⟩,
               none, none, none, none⟩⟩).1 "XYZ").map LicenseRow.monthly_quota
       = some 300) := by
  refine ⟨by decide, ?_, ?_⟩
  · exact (webhook_plan_class hmacFix "s" d2026Sep emptyStore "XYZ" "Enterprise Plan" "body"
      (by decide) (by decide) (by decide) _ _ rfl).2.2.1 (by decide)
  · exact (webhook_plan_class hmacFix "s" d2026Sep emptyStore "XYZ" "Starter" "body"
      (by decide) (by decide) (by decide) _ _ rfl).2.2.2.2 (by decide) (by decide)

/-- C9 counterexample: a payload whose only identifier sits at
`subscription.license.key` — none of the claim's three permitted locations —
is accepted with HTTP 200 and upserted, not rejected with 400. -/
theorem webhook_extract_cex :
    paySubOnly.license = none ∧
    paySubOnly.secret_key = none ∧
    (freemiusWebhook hmacFix "s" d2026Sep emptyStore
        ⟨some (hmacFix "s" "body"), "body", some paySubOnly⟩).2.status = 200 ∧
    ((freemiusWebhook hmacFix "s" d2026Sep emptyStore
        ⟨some (hmacFix "s" "body"), "body", some paySubOnly⟩).1 "K9").isSome = true :=
  ⟨rfl, rfl, by decide, by decide⟩

/-- C9 (amended): the license object is resolved in priority order from
payload.license, else subscription.license, else install.license; the
identifier is that object's secret_key, else its key, else the top-level
secret_key (empty strings skipped); when nothing truthy results the request
is rejected with 400 and the store unchanged, otherwise it is accepted and
the resolved key upserted. -/
theorem webhook_extract (hmacHex : String → String → String) (secret : String)
    (now : UTCDate) (db : Store) (p : WebhookPayload) (raw : String)
    (hne : hmacHex secret raw ≠ "") :
    ∀ db2 resp,
      freemiusWebhook hmacHex secret now db ⟨some (hmacHex secret raw), raw, some p⟩
        = (db2, resp) →
      (strTruthy (licenseKeyOf p) = false →
         db2 = db ∧ resp = ⟨400, false, some "sem licença no payload"⟩) ∧
      (∀ s, licenseKeyOf p = some s → s ≠ "" →
         resp.status = 200 ∧ (db2 s).isSome = true) ∧
      (∀ l, p.license = some l → licenseObjOf p = some l) ∧
      (p.license = none → ∀ l, p.subscription.bind FSSub.license = some l →
         licenseObjOf p = some l) ∧
      (p.license = none → p.subscription.bind FSSub.license = none →
         ∀ l, p.install.bind FSInstall.license = some l → licenseObjOf p = some l) ∧
      (∀ l s, licenseObjOf p = some l → l.secret_key = some s → s ≠ "" →
         licenseKeyOf p = some s) ∧
      (∀ l s, licenseObjOf p = some l → strTruthy l.secret_key = false →
         l.key = some s → s ≠ "" → licenseKeyOf p = some s) ∧
      (∀ l s, licenseObjOf p = some l → strTruthy l.secret_key = false →
         strTruthy l.key = false → p.secret_key = some s → s ≠ "" →
         licenseKeyOf p = some s) ∧
      (licenseObjOf p = none → ∀ s, p.secret_key = some s → s ≠ "" →
         licenseKeyOf p = some s) := by
  intro db2 resp h
  have hv : verifyFreemiusSignature hmacHex secret raw (some (hmacHex secret raw)) = true := by
    unfold verifyFreemiusSignature
    simp [strTruthy_some, bne_iff_ne, hne]
  unfold freemiusWebhook at h
  rw [hv] at h
  rw [if_neg (by simp)] at h
  dsimp only at h
  refine ⟨?_, ?_, ?_, ?_, ?_, ?_, ?_, ?_, ?_⟩
  · intro hfalse
    rw [if_pos hfalse] at h
    injection h with h1 h2
    exact ⟨h1.symm, h2.symm⟩
  · intro s hs hsne
    rw [if_neg (by rw [hs]; simp [strTruthy_some, bne_iff_ne, hsne])] at h
    rw [hs] at h
    simp only [Option.getD_some] at h
    injection h with h1 h2
    subst h1
    subst h2
    refine ⟨rfl, ?_⟩
    unfold upsertLicense
    rcases hx : db s with _ | r <;> simp [hx]
  · intro l hl
    simp [licenseObjOf, hl, Option.orElse]
  · intro h0 l hl
    simp [licenseObjOf, h0, hl, Option.orElse]
  · intro h0 h1 l hl
    simp [licenseObjOf, h0, h1, hl, Option.orElse]
  · intro l s hobj hsec hsne
    simp [licenseKeyOf, hobj, hsec, jsOr, strTruthy_some, bne_iff_ne, hsne]
  · intro l s hobj hsec hk hsne
    simp [licenseKeyOf, hobj, hsec, hk, jsOr, strTruthy_some, bne_iff_ne, hsne]
  · intro l s hobj hsec hk htop hsne
    simp [licenseKeyOf, hobj, hsec, hk, htop, jsOr, strTruthy_some, strTruthy_none,
          bne_iff_ne, hsne]
  · intro hobj s htop hsne
    simp [licenseKeyOf, hobj, htop, jsOr, strTruthy_some, strTruthy_none,
          bne_iff_ne, hsne]

/-- Witness for C9 (amended): a payload with a top-level license secret key
"SK" is accepted and "SK" is upserted. -/
theorem webhook_extract_witness :
    licenseKeyOf payTopSecret = some "SK" ∧
    (freemiusWebhook hmacFix "s" d2026Sep emptyStore
        ⟨some (hmacFix "s" "body"), "body", some payTopSecret⟩).2.status = 200 ∧
    ((freemiusWebhook hmacFix "s" d2026Sep emptyStore
        ⟨some (hmacFix "s" "body"), "body", some payTopSecret⟩).1 "SK").isSome = true := by
  refine ⟨by decide, ?_, ?_⟩
  · exact ((webhook_extract hmacFix "s" d2026Sep emptyStore payTopSecret "body"
      (by decide) _ _ rfl).2.1 "SK" (by decide) (by decide)).1
  · exact ((webhook_extract hmacFix "s" d2026Sep emptyStore payTopSecret "body"
      (by decide) _ _ rfl).2.1 "SK" (by decide) (by decide)).2

end ImageAltAI
